import Mathlib

/-!
Verification of the classification-and-tagging pipeline of the
api-secundaria-mvp repository, as a shallow embedding of
app/services/tag_analyzer.py, app/services/file_processor.py and
app/services/vision_service.py.

Modelling conventions:
- Python strings are Lean strings; str.lower() is character-wise ASCII
  lowercasing (all tags handled by the pipeline are ASCII).
- Python dicts are association lists in insertion order; dict.get is an
  association-list lookup.
- Python sorted(key, reverse=True) is a stable merge sort with the
  reversed key comparison.
- try/except around file reading is modelled by passing the read result
  as an Option; the except branch is the none case.
- Float division for the image aspect ratio is modelled with exact
  integer comparisons (width/height against the decimal thresholds).
-/

namespace PySupport

/-- Python str.lower(), modelled as character-wise ASCII lowercasing. -/
def pyLower (s : String) : String := String.mk (s.data.map Char.toLower)

/-- Helper for the Python substring test, on character lists. -/
def containsSub (needle : List Char) : List Char → Bool
  | [] => needle.isEmpty
  | c :: rest => needle.isPrefixOf (c :: rest) || containsSub needle rest

/-- Python substring containment, needle in hay. -/
def pyIn (needle hay : String) : Bool := containsSub needle.data hay.data

/-- Python str.startswith. -/
def pyStartswith (s pre : String) : Bool := pre.data.isPrefixOf s.data

/-- Python str.endswith. -/
def pyEndswith (s suf : String) : Bool := suf.data.isSuffixOf s.data

/-- Python str.split() with no separator: split on whitespace, dropping
empty pieces. -/
def pySplitWS (s : String) : List String :=
  (s.split Char.isWhitespace).filter (fun w => w ≠ "")

end PySupport

open PySupport

namespace TagAnalyzer

/-- TagAnalyzer.COMMON_TAGS_TO_REMOVE from app/services/tag_analyzer.py. -/
def COMMON_TAGS_TO_REMOVE : List String := ["unknown", "error", "other", "undefined"]

/-- TagAnalyzer.TAG_SYNONYMS from app/services/tag_analyzer.py. -/
def TAG_SYNONYMS : List (String × String) := [
  ("jpg", "jpeg"),
  ("jpeg", "jpeg"),
  ("png", "png"),
  ("gif", "gif"),
  ("pic", "image"),
  ("picture", "image"),
  ("photo", "image"),
  ("img", "image"),
  ("movie", "video"),
  ("clip", "video"),
  ("sound", "audio"),
  ("music", "audio"),
  ("doc", "document"),
  ("paper", "document"),
  ("file", "document"),
  ("code", "programming"),
  ("script", "programming"),
  ("dev", "development"),
  ("frontend", "front-end"),
  ("backend", "back-end")]

/-- TagAnalyzer.TAG_PRIORITY from app/services/tag_analyzer.py. -/
def TAG_PRIORITY : List (String × Nat) := [
  ("image", 10),
  ("video", 10),
  ("audio", 10),
  ("document", 10),
  ("code", 9),
  ("programming", 9),
  ("python", 8),
  ("javascript", 8),
  ("react", 8),
  ("high-resolution", 7),
  ("4k", 7),
  ("hd", 7),
  ("pdf", 6),
  ("web", 5),
  ("frontend", 5),
  ("backend", 5)]

/-- self.TAG_SYNONYMS.get(tag_lower, tag_lower). -/
def synonymOf (t : String) : String :=
  match TAG_SYNONYMS.find? (fun p => p.1 == t) with
  | some p => p.2
  | none => t

/-- self.TAG_PRIORITY.get(t, 0). -/
def priority (t : String) : Nat :=
  match TAG_PRIORITY.find? (fun p => p.1 == t) with
  | some p => p.2
  | none => 0

/-- TagAnalyzer.normalize_tags: lower-case each tag and apply the
synonym map. -/
def normalize_tags (tags : List String) : List String :=
  tags.map (fun t => synonymOf (pyLower t))

/-- The loop of TagAnalyzer.filter_tags, with the seen set made explicit. -/
def filter_tags_aux (seen : List String) : List String → List String
  | [] => []
  | t :: rest =>
    if pyLower t ∈ seen ∨ pyLower t ∈ COMMON_TAGS_TO_REMOVE then filter_tags_aux seen rest
    else pyLower t :: filter_tags_aux (pyLower t :: seen) rest

/-- TagAnalyzer.filter_tags: drop stop tags and duplicates, keeping first
occurrences in order. -/
def filter_tags (tags : List String) : List String := filter_tags_aux [] tags

/-- The comparison realising sorted(key=lambda t: (priority(t), t),
reverse=True): a may precede b iff the key of b is lexicographically at
most the key of a. -/
def keyLe (a b : String) : Bool :=
  decide (priority b < priority a ∨ (priority b = priority a ∧ b ≤ a))

/-- TagAnalyzer.prioritize_tags: stable sort by descending (priority, tag)
key, then truncate to max_tags entries. -/
def prioritize_tags (maxTags : Nat) (tags : List String) : List String :=
  (tags.mergeSort keyLe).take maxTags

/-- TagAnalyzer.process_tags: normalize, filter, prioritize. -/
def process_tags (maxTags : Nat) (raw_tags : List String) : List String :=
  prioritize_tags maxTags (filter_tags (normalize_tags raw_tags))

/-- TagAnalyzer.merge_tags: concatenate the argument lists in order and
reprocess. -/
def merge_tags (maxTags : Nat) (tag_lists : List (List String)) : List String :=
  process_tags maxTags tag_lists.flatten

/-- TagAnalyzer.add_custom_tags. -/
def add_custom_tags (maxTags : Nat) (existing custom : List String) : List String :=
  merge_tags maxTags [existing, custom]

end TagAnalyzer

namespace VisionService

/-- The likelihood levels reported by the Vision safe-search annotation. -/
inductive Likelihood where
  | UNKNOWN
  | VERY_UNLIKELY
  | UNLIKELY
  | POSSIBLE
  | LIKELY
  | VERY_LIKELY
deriving DecidableEq, Fintype, Repr

/-- The .name attribute of a likelihood value. -/
def likelihoodName : Likelihood → String
  | .UNKNOWN => "UNKNOWN"
  | .VERY_UNLIKELY => "VERY_UNLIKELY"
  | .UNLIKELY => "UNLIKELY"
  | .POSSIBLE => "POSSIBLE"
  | .LIKELY => "LIKELY"
  | .VERY_LIKELY => "VERY_LIKELY"

/-- The level_map dict defined inside VisionService._analyze_safe_search.
It is defined by the source but never consulted by the returned result. -/
def level_map : List (String × Option String) := [
  ("VERY_UNLIKELY", none),
  ("UNLIKELY", none),
  ("POSSIBLE", some "flagged"),
  ("LIKELY", some "flagged"),
  ("VERY_LIKELY", some "flagged")]

/-- The safe_search_annotation fields read by the analyzer. -/
structure SafeSearchResult where
  adult : Likelihood
  violence : Likelihood
deriving DecidableEq, Fintype, Repr

/-- VisionService._analyze_safe_search, with the remote response passed as
an Option: none models the except branch, which returns an empty list. -/
def analyze_safe_search (resp : Option SafeSearchResult) : List String :=
  match resp with
  | none => []
  | some safe =>
    if likelihoodName safe.adult == "VERY_UNLIKELY"
        && likelihoodName safe.violence == "VERY_UNLIKELY" then
      ["professional", "safe-content"]
    else []

end VisionService

namespace FileProcessor

/-- FileProcessor.MIME_PREFIXES from app/services/file_processor.py, in
declaration order. -/
def MIME_PREFIXES : List (String × String) := [
  ("image/", "image"),
  ("video/", "video"),
  ("audio/", "audio"),
  ("text/", "text")]

/-- FileProcessor.MIME_EXACT from app/services/file_processor.py. -/
def MIME_EXACT : List (String × String) := [
  ("application/pdf", "document"),
  ("application/msword", "document"),
  ("application/vnd.openxmlformats-officedocument.wordprocessingml.document", "document"),
  ("application/vnd.ms-excel", "spreadsheet"),
  ("application/vnd.openxmlformats-officedocument.spreadsheetml.sheet", "spreadsheet"),
  ("application/zip", "archive"),
  ("application/x-rar-compressed", "archive"),
  ("application/x-7z-compressed", "archive")]

/-- Exact-map membership test, mime_type in MIME_EXACT with its value. -/
def lookupExact (m : String) : Option String :=
  (MIME_EXACT.find? (fun p => p.1 == m)).map (fun p => p.2)

/-- The prefix loop of FileProcessor.get_file_category: first prefix of
the table that mime_type starts with wins. -/
def firstPrefixCat (m : String) : List (String × String) → Option String
  | [] => none
  | p :: rest => if pyStartswith m p.1 then some p.2 else firstPrefixCat m rest

/-- FileProcessor.get_file_category: exact lookup, then prefix scan, then
the fallback category other. -/
def get_file_category (mime_type : String) : String :=
  match lookupExact mime_type with
  | some c => c
  | none =>
    match firstPrefixCat mime_type MIME_PREFIXES with
    | some c => c
    | none => "other"

/-- FileProcessor.PDF_KEYWORDS from app/services/file_processor.py. -/
def PDF_KEYWORDS : List (String × List String) := [
  ("invoice", ["invoice", "fatura", "pagamento", "total"]),
  ("financial", ["financial", "financeiro", "contabilidade"]),
  ("contract", ["contract", "contrato", "acordo"]),
  ("legal", ["legal", "juridico", "tribunal"]),
  ("proposal", ["proposal", "proposta", "orçamento"]),
  ("budget", ["budget", "orçamento", "custo"]),
  ("report", ["report", "relatório", "análise"]),
  ("presentation", ["presentation", "apresentação", "slide"])]

/-- What PdfReader exposes to analyze_pdf: the page count and the
extracted text of each page. -/
structure PdfInfo where
  numPages : Nat
  pageTexts : List String

/-- The page-count tier branch of FileProcessor.analyze_pdf. -/
def pdfTier (numPages : Nat) : List String :=
  if numPages ≤ 3 then ["single-page", "flyer"]
  else if numPages ≤ 5 then ["short-document", "brief"]
  else if numPages ≤ 20 then ["medium-document", "report"]
  else ["long-document", "book", "manual"]

/-- FileProcessor.analyze_pdf, with the PdfReader result passed as an
Option: none models the except branch. The found category set is iterated
here in keyword-table order (the source iterates a Python set, whose
order is unspecified); the claims below only use membership. -/
def analyze_pdf (pdf : Option PdfInfo) : List String :=
  match pdf with
  | none => ["pdf", "document", "error"]
  | some info =>
    let tags := ["pdf", "document"] ++ pdfTier info.numPages
    let text_sample := pyLower (String.join (info.pageTexts.take 3))
    if text_sample ≠ "" then
      let tags := if 1000 < (pySplitWS text_sample).length then tags ++ ["text-heavy"] else tags
      tags ++ (PDF_KEYWORDS.filter (fun ck => ck.2.any (fun k => pyIn k text_sample))).map (fun ck => ck.1)
    else tags

/-- What PIL.Image.open exposes to analyze_image_local: size, format,
mode, and the 1x1-downsampled pixel. A none pixel covers both the
integer-pixel early return and the swallowed exception of
_analyze_dominant_color, which add no tag. -/
structure ImageInfo where
  width : Nat
  height : Nat
  format : Option String
  mode : String
  pixel : Option (Nat × Nat × Nat)

/-- FileProcessor._analyze_dominant_color as the list of tags it appends. -/
def analyze_dominant_color (pixel : Option (Nat × Nat × Nat)) : List String :=
  match pixel with
  | none => []
  | some (r, g, b) =>
    if 200 < r ∧ g < 100 ∧ b < 100 then ["red"]
    else if r < 100 ∧ 200 < g ∧ b < 100 then ["green"]
    else if r < 100 ∧ g < 100 ∧ 200 < b then ["blue"]
    else if 200 < r ∧ 200 < g ∧ 200 < b then ["bright"]
    else if r < 50 ∧ g < 50 ∧ b < 50 then ["dark"]
    else []

/-- The mode_map dict inside FileProcessor.analyze_image_local. -/
def mode_map : List (String × List String) := [
  ("RGB", ["color"]),
  ("L", ["grayscale", "black-white"]),
  ("LA", ["grayscale", "black-white"]),
  ("RGBA", ["color", "transparent"])]

/-- mode_map.get(img.mode, []). -/
def modeTags (mode : String) : List String :=
  match mode_map.find? (fun p => p.1 == mode) with
  | some p => p.2
  | none => []

/-- The img.format branch: Python truthiness skips both None and the
empty string. -/
def formatTags (format : Option String) : List String :=
  match format with
  | some f => if f = "" then [] else [pyLower f]
  | none => []

/-- The aspect-ratio branch of analyze_image_local. The float ratio
width/height is compared with 0.9, 1.1, 1.5 and 0.7; height = 0 is
treated as ratio 1. -/
def ratioTags (width height : Nat) : List String :=
  if height = 0 then ["square", "balanced"]
  else if 9 * height ≤ 10 * width ∧ 10 * width ≤ 11 * height then ["square", "balanced"]
  else if 15 * height < 10 * width then ["landscape", "wide"]
  else if 10 * width < 7 * height then ["portrait", "vertical"]
  else []

/-- The resolution branch of analyze_image_local, on the pixel count. -/
def resolutionTags (width height : Nat) : List String :=
  let pixels := width * height
  if 8294400 ≤ pixels then ["4k", "ultra-hd"]
  else if 2073600 ≤ pixels then ["high resolution", "hd"]
  else if 480000 ≤ pixels then ["low resolution", "sd"]
  else []

/-- The tags computed by analyze_image_local before the vision service is
consulted. -/
def localImageTags (img : ImageInfo) : List String :=
  ["image"]
  ++ formatTags img.format
  ++ ratioTags img.width img.height
  ++ resolutionTags img.width img.height
  ++ modeTags img.mode
  ++ analyze_dominant_color img.pixel

/-- FileProcessor.analyze_image_local, with the PIL result passed as an
Option (none models the except branch) and the vision service abstracted
by its availability flag and the tag list its analyze_image call returns.
The source only extends tags when vision_tags is non-empty; extending
with the empty list is the same. -/
def analyze_image_local (img : Option ImageInfo) (visionAvailable : Bool)
    (visionTags : List String) : List String :=
  match img with
  | none => ["image", "unknown"]
  | some info =>
    let tags := ["image"]
    let tags := tags ++ formatTags info.format
    let tags := tags ++ ratioTags info.width info.height
    let tags := tags ++ resolutionTags info.width info.height
    let tags := tags ++ modeTags info.mode
    let tags := tags ++ analyze_dominant_color info.pixel
    if visionAvailable then tags ++ visionTags else tags

/-- One entry of FileProcessor.TEXT_ANALYSIS_MAP: extension set, base
tags, and the optional content check. -/
structure TextRule where
  exts : List String
  tags : List String
  check : Option (String → List String)

/-- FileProcessor.TEXT_ANALYSIS_MAP from app/services/file_processor.py. -/
def TEXT_ANALYSIS_MAP : List TextRule := [
  ⟨[".py", ".python"], ["code", "python", "programming"],
    some (fun c => if pyIn "import" c && pyIn "def" c then ["script"] else [])⟩,
  ⟨[".js", ".jsx", ".ts", ".tsx"], ["code", "javascript", "programming"],
    some (fun c =>
      (if pyIn "function" c || pyIn "const" c then ["script"] else []) ++
      (if pyIn "react" (pyLower c) || pyIn "component" (pyLower c) then ["react", "frontend"] else []))⟩,
  ⟨[".html", ".htm"], ["code", "html", "web", "markup"],
    some (fun c => if pyIn "<html" (pyLower c) then ["webpage"] else [])⟩,
  ⟨[".css"], ["code", "css", "stylesheet", "design"], none⟩,
  ⟨[".java"], ["code", "java", "programming"],
    some (fun c => if pyIn "class" c && pyIn "public" c then ["oop"] else [])⟩,
  ⟨[".cpp", ".c", ".h", ".hpp"], ["code", "c++", "c", "programming"],
    some (fun c => if pyIn "#include" c then ["native"] else [])⟩,
  ⟨[".php"], ["code", "php", "backend", "web"], none⟩,
  ⟨[".sql"], ["code", "sql", "database", "query"], none⟩,
  ⟨[".json"], ["data", "json", "config"], none⟩,
  ⟨[".md", ".markdown"], ["markdown", "documentation", "readme"], none⟩,
  ⟨[".csv"], ["csv", "data", "spreadsheet"], none⟩]

/-- The rule loop of FileProcessor.analyze_text: first rule whose
extension set matches appends its tags and check result, then the loop
breaks. -/
def textRuleTags (file_lower content : String) : List TextRule → List String
  | [] => []
  | rule :: rest =>
    if rule.exts.any (fun ext => pyEndswith file_lower ext) then
      rule.tags ++ (match rule.check with | some f => f content | none => [])
    else textRuleTags file_lower content rest

/-- FileProcessor.analyze_text, with the read content passed as an
Option: none models the except branch; the 10000-byte cap is part of the
content passed in. -/
def analyze_text (file_path : String) (content : Option String) : List String :=
  match content with
  | none => ["text", "error"]
  | some c =>
    let tags := ["text"] ++ textRuleTags (pyLower file_path) c TEXT_ANALYSIS_MAP
    if 100 < c.data.count '\n' then tags ++ ["large-file"] else tags

/-- The ext_map of FileProcessor.analyze_video. -/
def video_ext_map : List (String × List String) := [
  (".mp4", ["mp4", "h264"]),
  (".avi", ["avi"]),
  (".mov", ["mov", "quicktime"]),
  (".mkv", ["mkv", "matroska"]),
  (".webm", ["webm", "vp9"])]

/-- The ext_map of FileProcessor.analyze_audio. -/
def audio_ext_map : List (String × List String) := [
  (".mp3", ["mp3", "mpeg"]),
  (".wav", ["wav", "lossless"]),
  (".flac", ["flac", "lossless", "high-quality"]),
  (".ogg", ["ogg", "vorbis"]),
  (".m4a", ["m4a", "aac"])]

/-- The extension loop of FileProcessor._analyze_media_ext. -/
def analyze_media_ext_aux (file_lower : String) : List (String × List String) → List String
  | [] => []
  | (ext, extras) :: rest =>
    if pyEndswith file_lower ext then extras else analyze_media_ext_aux file_lower rest

/-- FileProcessor._analyze_media_ext. -/
def analyze_media_ext (file_path base_tag : String)
    (mapping : List (String × List String)) : List String :=
  [base_tag, "media"] ++ analyze_media_ext_aux (pyLower file_path) mapping

/-- FileProcessor.analyze_video. -/
def analyze_video (file_path : String) : List String :=
  analyze_media_ext file_path "video" video_ext_map

/-- FileProcessor.analyze_audio. -/
def analyze_audio (file_path : String) : List String :=
  analyze_media_ext file_path "audio" audio_ext_map

/-- The per-request inputs of one FileProcessor.analyze_file run: the
stored path and what each analyzer would observe when reading the file. -/
structure FileData where
  path : String
  image : Option ImageInfo
  visionAvailable : Bool
  visionTags : List String
  pdf : Option PdfInfo
  textContent : Option String

/-- FileProcessor.analyze_file: dispatch on the resolved category via the
analyzer_map dict; categories without an analyzer yield the singleton
category list. -/
def analyze_file (fd : FileData) (mime_type : String) : List String :=
  let category := get_file_category mime_type
  if category = "image" then analyze_image_local fd.image fd.visionAvailable fd.visionTags
  else if category = "document" then analyze_pdf fd.pdf
  else if category = "text" then analyze_text fd.path fd.textContent
  else if category = "video" then analyze_video fd.path
  else if category = "audio" then analyze_audio fd.path
  else [category]

end FileProcessor

namespace PySupport

theorem charToLower_key : ∀ n : Nat, 65 ≤ n → n ≤ 90 →
    (Char.ofNat (n + 32)).toLower = Char.ofNat (n + 32) := by
  intro n h1 h2
  interval_cases n <;> decide

theorem charToLower_idem (c : Char) : c.toLower.toLower = c.toLower := by
  by_cases h : 65 ≤ c.toNat ∧ c.toNat ≤ 90
  · have h1 : c.toLower = Char.ofNat (c.toNat + 32) := by
      simp only [Char.toLower]
      rw [if_pos ⟨h.1, h.2⟩]
    rw [h1]
    exact charToLower_key c.toNat h.1 h.2
  · have h1 : c.toLower = c := by
      simp only [Char.toLower]
      rw [if_neg h]
    rw [h1, h1]

theorem pyLower_idem (s : String) : pyLower (pyLower s) = pyLower s := by
  unfold pyLower
  congr 1
  simp only [List.map_map]
  exact List.map_congr_left (fun a _ => charToLower_idem a)

theorem pyLower_eq_empty_iff (s : String) : pyLower s = "" ↔ s = "" := by
  cases s with
  | mk data =>
    constructor
    · intro h
      have h2 : data.map Char.toLower = [] := congrArg String.data h
      simp at h2
      simp [h2]
    · intro h
      rw [h]
      rfl

end PySupport

namespace TagAnalyzer

theorem filter_tags_aux_mem : ∀ (l seen : List String) (t : String),
    t ∈ filter_tags_aux seen l →
    (∃ x ∈ l, t = pyLower x) ∧ t ∉ COMMON_TAGS_TO_REMOVE ∧ t ∉ seen := by
  intro l
  induction l with
  | nil => intro seen t h; simp [filter_tags_aux] at h
  | cons x rest ih =>
    intro seen t h
    simp only [filter_tags_aux] at h
    by_cases hc : pyLower x ∈ seen ∨ pyLower x ∈ COMMON_TAGS_TO_REMOVE
    · rw [if_pos hc] at h
      obtain ⟨⟨y, hy, hty⟩, h2, h3⟩ := ih seen t h
      exact ⟨⟨y, List.mem_cons_of_mem _ hy, hty⟩, h2, h3⟩
    · rw [if_neg hc] at h
      push_neg at hc
      rcases List.mem_cons.mp h with h | h
      · subst h
        exact ⟨⟨x, List.mem_cons_self _ _, rfl⟩, hc.2, hc.1⟩
      · obtain ⟨⟨y, hy, hty⟩, h2, h3⟩ := ih _ t h
        exact ⟨⟨y, List.mem_cons_of_mem _ hy, hty⟩, h2,
          fun hs => h3 (List.mem_cons_of_mem _ hs)⟩

theorem filter_tags_aux_nodup : ∀ (l seen : List String), (filter_tags_aux seen l).Nodup := by
  intro l
  induction l with
  | nil => intro seen; simp [filter_tags_aux]
  | cons x rest ih =>
    intro seen
    simp only [filter_tags_aux]
    by_cases hc : pyLower x ∈ seen ∨ pyLower x ∈ COMMON_TAGS_TO_REMOVE
    · rw [if_pos hc]; exact ih seen
    · rw [if_neg hc]
      refine List.Nodup.cons ?_ (ih _)
      intro hmem
      exact (filter_tags_aux_mem rest _ _ hmem).2.2 (List.mem_cons_self _ _)

theorem filter_tags_aux_id : ∀ (l seen : List String),
    (∀ t ∈ l, pyLower t = t ∧ t ∉ COMMON_TAGS_TO_REMOVE ∧ t ∉ seen) → l.Nodup →
    filter_tags_aux seen l = l := by
  intro l
  induction l with
  | nil => intro seen _ _; rfl
  | cons x rest ih =>
    intro seen h hnd
    obtain ⟨hx1, hx2, hx3⟩ := h x (List.mem_cons_self _ _)
    simp only [filter_tags_aux]
    rw [hx1, if_neg (by tauto)]
    congr 1
    refine ih (x :: seen) (fun t ht => ?_) (List.Nodup.of_cons hnd)
    obtain ⟨g1, g2, g3⟩ := h t (List.mem_cons_of_mem _ ht)
    refine ⟨g1, g2, fun hmem => ?_⟩
    rcases List.mem_cons.mp hmem with rfl | hmem
    · exact (List.nodup_cons.mp hnd).1 ht
    · exact g3 hmem

theorem keyLe_trans : ∀ (a b c : String), keyLe a b = true → keyLe b c = true → keyLe a c = true := by
  intro a b c hab hbc
  simp only [keyLe, decide_eq_true_eq] at *
  rcases hab with h | ⟨h1, h2⟩ <;> rcases hbc with g | ⟨g1, g2⟩
  · exact Or.inl (lt_trans g h)
  · exact Or.inl (by omega)
  · exact Or.inl (by omega)
  · exact Or.inr ⟨by omega, le_trans g2 h2⟩

theorem keyLe_total : ∀ (a b : String), keyLe a b || keyLe b a := by
  intro a b
  simp only [keyLe, Bool.or_eq_true, decide_eq_true_eq]
  rcases Nat.lt_trichotomy (priority a) (priority b) with h | h | h
  · exact Or.inr (Or.inl h)
  · rcases le_total b a with hb | hb
    · exact Or.inl (Or.inr ⟨h.symm, hb⟩)
    · exact Or.inr (Or.inr ⟨h, hb⟩)
  · exact Or.inl (Or.inl h)

theorem process_tags_mem_filtered (m : Nat) (x : List String) :
    ∀ t ∈ process_tags m x, t ∈ filter_tags (normalize_tags x) := by
  intro t ht
  unfold process_tags prioritize_tags at ht
  exact List.mem_mergeSort.mp (List.take_subset _ _ ht)

theorem process_tags_nodup (m : Nat) (x : List String) : (process_tags m x).Nodup :=
  List.Nodup.sublist (List.take_sublist _ _)
    ((List.mergeSort_perm _ keyLe).symm.nodup (filter_tags_aux_nodup _ _))

theorem process_tags_length_le (m : Nat) (x : List String) : (process_tags m x).length ≤ m := by
  unfold process_tags prioritize_tags
  rw [List.length_take]
  exact Nat.min_le_left _ _

theorem synonym_values_stable :
    ∀ p ∈ TAG_SYNONYMS, pyLower p.2 = p.2 ∧ synonymOf p.2 = p.2 ∧ p.2 ≠ "" := by decide

theorem synonymOf_eq_of_find (w : String) (p : String × String)
    (hfind : TAG_SYNONYMS.find? (fun q => q.1 == w) = some p) : synonymOf w = p.2 := by
  unfold synonymOf
  rw [hfind]

theorem synonymOf_eq_of_find_none (w : String)
    (hfind : TAG_SYNONYMS.find? (fun q => q.1 == w) = none) : synonymOf w = w := by
  unfold synonymOf
  rw [hfind]

theorem synonym_apply_stable (w : String) (hw : pyLower w = w) :
    pyLower (synonymOf w) = synonymOf w ∧ synonymOf (synonymOf w) = synonymOf w := by
  cases hfind : TAG_SYNONYMS.find? (fun q => q.1 == w) with
  | some p =>
    rw [synonymOf_eq_of_find w p hfind]
    have hp := synonym_values_stable p (List.mem_of_find?_eq_some hfind)
    exact ⟨hp.1, hp.2.1⟩
  | none =>
    rw [synonymOf_eq_of_find_none w hfind]
    exact ⟨hw, synonymOf_eq_of_find_none w hfind⟩

end TagAnalyzer

namespace TagAnalyzer

theorem filtered_normalized_stable (x : List String) :
    ∀ t ∈ filter_tags (normalize_tags x),
      pyLower t = t ∧ synonymOf t = t ∧ t ∉ COMMON_TAGS_TO_REMOVE := by
  intro t ht
  obtain ⟨⟨y, hy, hty⟩, h2, _⟩ := filter_tags_aux_mem _ _ _ ht
  simp only [normalize_tags, List.mem_map] at hy
  obtain ⟨x0, _, rfl⟩ := hy
  obtain ⟨hst1, hst2⟩ := synonym_apply_stable (pyLower x0) (pyLower_idem x0)
  subst hty
  rw [hst1]
  exact ⟨hst1, hst2, by rwa [hst1] at h2⟩

theorem process_tags_stable (m : Nat) (x : List String) :
    ∀ t ∈ process_tags m x,
      pyLower t = t ∧ synonymOf t = t ∧ t ∉ COMMON_TAGS_TO_REMOVE :=
  fun t ht => filtered_normalized_stable x t (process_tags_mem_filtered m x t ht)

theorem process_tags_sorted (m : Nat) (x : List String) :
    (process_tags m x).Pairwise (fun a b => keyLe a b = true) := by
  unfold process_tags prioritize_tags
  exact List.Pairwise.sublist (List.take_sublist _ _)
    (List.sorted_mergeSort keyLe_trans keyLe_total _)

theorem process_tags_idem (m : Nat) (x : List String) :
    process_tags m (process_tags m x) = process_tags m x := by
  have hstable := process_tags_stable m x
  have hnodup := process_tags_nodup m x
  have hn : normalize_tags (process_tags m x) = process_tags m x := by
    unfold normalize_tags
    have he : ∀ t ∈ process_tags m x, synonymOf (pyLower t) = t := by
      intro t ht
      rw [(hstable t ht).1]
      exact (hstable t ht).2.1
    rw [List.map_congr_left he]
    simp
  have hf : filter_tags (process_tags m x) = process_tags m x := by
    unfold filter_tags
    exact filter_tags_aux_id _ []
      (fun t ht => ⟨(hstable t ht).1, (hstable t ht).2.2, by simp⟩) hnodup
  have hms : (process_tags m x).mergeSort keyLe = process_tags m x :=
    List.mergeSort_of_sorted (process_tags_sorted m x)
  calc process_tags m (process_tags m x)
      = prioritize_tags m (filter_tags (normalize_tags (process_tags m x))) := rfl
    _ = prioritize_tags m (process_tags m x) := by rw [hn, hf]
    _ = ((process_tags m x).mergeSort keyLe).take m := rfl
    _ = (process_tags m x).take m := by rw [hms]
    _ = process_tags m x := List.take_of_length_le (process_tags_length_le m x)

end TagAnalyzer

namespace TagAnalyzer

theorem process_tags_elem_src (m : Nat) (x : List String) :
    ∀ t ∈ process_tags m x, ∃ x0 ∈ x, t = pyLower (synonymOf (pyLower x0)) := by
  intro t ht
  obtain ⟨⟨y, hy, hty⟩, _, _⟩ := filter_tags_aux_mem _ _ _ (process_tags_mem_filtered m x t ht)
  simp only [normalize_tags, List.mem_map] at hy
  obtain ⟨x0, hx0, rfl⟩ := hy
  exact ⟨x0, hx0, hty⟩

theorem process_tags_ne_empty (m : Nat) (x : List String) (hx : ∀ t ∈ x, t ≠ "") :
    ∀ t ∈ process_tags m x, t ≠ "" := by
  intro t ht
  obtain ⟨x0, hx0, rfl⟩ := process_tags_elem_src m x t ht
  cases hfind : TAG_SYNONYMS.find? (fun q => q.1 == pyLower x0) with
  | some p =>
    rw [synonymOf_eq_of_find _ p hfind]
    have hp := synonym_values_stable p (List.mem_of_find?_eq_some hfind)
    rw [hp.1]
    exact hp.2.2
  | none =>
    rw [synonymOf_eq_of_find_none _ hfind, pyLower_idem]
    intro hcon
    exact hx x0 hx0 ((pyLower_eq_empty_iff x0).mp hcon)

end TagAnalyzer

open TagAnalyzer

/-- C1: for every input tag list, the output of process_tags has length at
most the configured maximum, contains no tag of the stop-tag set, and
contains no two tags with equal lower-cased forms. -/
theorem C1_process_tags_bounded_no_stop_unique (m : Nat) (x : List String) :
    (process_tags m x).length ≤ m ∧
    (∀ t ∈ process_tags m x, t ∉ COMMON_TAGS_TO_REMOVE) ∧
    ((process_tags m x).map pyLower).Nodup := by
  refine ⟨process_tags_length_le m x, fun t ht => (process_tags_stable m x t ht).2.2, ?_⟩
  have h : (process_tags m x).map pyLower = process_tags m x := by
    rw [List.map_congr_left (fun t ht => (process_tags_stable m x t ht).1)]
    simp
  rw [h]
  exact process_tags_nodup m x

unseal List.merge List.mergeSort in
/-- Witness for C1 at a concrete input. -/
theorem C1_witness :
    (process_tags 15 ["JPG", "image", "Unknown", "jpeg"]).length ≤ 15 ∧
    "image" ∉ COMMON_TAGS_TO_REMOVE :=
  ⟨(C1_process_tags_bounded_no_stop_unique 15 ["JPG", "image", "Unknown", "jpeg"]).1,
   (C1_process_tags_bounded_no_stop_unique 15 ["JPG", "image", "Unknown", "jpeg"]).2.1
     "image" (by decide)⟩

/-- C3: the synonym table maps every canonical value to itself, and under
it process_tags is idempotent. -/
theorem C3_process_tags_idem :
    (∀ v ∈ TAG_SYNONYMS.map Prod.snd, synonymOf v = v) ∧
    ∀ (m : Nat) (x : List String), process_tags m (process_tags m x) = process_tags m x := by
  constructor
  · intro v hv
    simp only [List.mem_map] at hv
    obtain ⟨p, hp, rfl⟩ := hv
    exact (synonym_values_stable p hp).2.1
  · exact process_tags_idem

/-- Witness for C3 at a concrete input. -/
theorem C3_witness :
    synonymOf "jpeg" = "jpeg" ∧
    process_tags 15 (process_tags 15 ["JPG", "photo"]) = process_tags 15 ["JPG", "photo"] :=
  ⟨C3_process_tags_idem.1 "jpeg" (by decide), C3_process_tags_idem.2 15 ["JPG", "photo"]⟩

/-- C4: merge_tags on two lists equals process_tags of their
concatenation in argument order. -/
theorem C4_merge_tags_eq_process_append (m : Nat) (a b : List String) :
    merge_tags m [a, b] = process_tags m (a ++ b) := by
  unfold merge_tags
  simp

unseal List.merge List.mergeSort in
/-- C5 counterexample: on the input consisting of one empty-string tag,
the output of process_tags is the empty-string tag itself, so the output
is not non-empty tag by tag. -/
theorem C5_counterexample_empty_tag :
    process_tags 15 [""] = [""] ∧ "" ∈ process_tags 15 [""] := by decide

/-- C5 (amended): every tag in the final list returned by process_tags is
lower-case, and provided every input tag is non-empty, every output tag
is non-empty. -/
theorem C5_process_tags_lowercase (m : Nat) (x : List String) :
    (∀ t ∈ process_tags m x, pyLower t = t) ∧
    ((∀ t ∈ x, t ≠ "") → ∀ t ∈ process_tags m x, t ≠ "") :=
  ⟨fun t ht => (process_tags_stable m x t ht).1, process_tags_ne_empty m x⟩

unseal List.merge List.mergeSort in
/-- Witness for C5 at a concrete input. -/
theorem C5_witness : pyLower "jpeg" = "jpeg" ∧ "jpeg" ≠ "" :=
  ⟨(C5_process_tags_lowercase 15 ["JPG"]).1 "jpeg" (by decide),
   (C5_process_tags_lowercase 15 ["JPG"]).2 (by decide) "jpeg" (by decide)⟩

namespace FileProcessor

theorem firstPrefixCat_eq_find (m : String) :
    ∀ l : List (String × String),
      firstPrefixCat m l = (l.find? (fun q => pyStartswith m q.1)).map (fun q => q.2) := by
  intro l
  induction l with
  | nil => rfl
  | cons p rest ih =>
    by_cases h : pyStartswith m p.1 = true
    · simp [firstPrefixCat, List.find?_cons_of_pos _ h, h]
    · simp only [Bool.not_eq_true] at h
      simp [firstPrefixCat, List.find?_cons_of_neg, h, ih]

theorem mime_exact_values :
    ∀ p ∈ MIME_EXACT,
      p.2 ∈ ["image", "video", "audio", "text", "document", "spreadsheet", "archive", "other"] := by
  decide

theorem mime_prefix_values :
    ∀ p ∈ MIME_PREFIXES,
      p.2 ∈ ["image", "video", "audio", "text", "document", "spreadsheet", "archive", "other"] := by
  decide

end FileProcessor

open FileProcessor

/-- C2: get_file_category is total and always returns one of the fixed
categories; an exact entry takes precedence over any prefix entry; prefix
entries are scanned in declaration order with the first match winning;
input matching neither map yields the category other. -/
theorem C2_get_file_category_total (m : String) :
    get_file_category m ∈
      ["image", "video", "audio", "text", "document", "spreadsheet", "archive", "other"] ∧
    (∀ c, lookupExact m = some c → get_file_category m = c) ∧
    (lookupExact m = none →
      ∀ p, MIME_PREFIXES.find? (fun q => pyStartswith m q.1) = some p →
        get_file_category m = p.2) ∧
    (lookupExact m = none → MIME_PREFIXES.find? (fun q => pyStartswith m q.1) = none →
      get_file_category m = "other") ∧
    get_file_category "application/pdf" = "document" := by
  refine ⟨?_, ?_, ?_, ?_, by decide⟩
  · unfold get_file_category
    cases hex : lookupExact m with
    | some c =>
      obtain ⟨p, hp, rfl⟩ : ∃ p, MIME_EXACT.find? (fun q => q.1 == m) = some p ∧ p.2 = c := by
        unfold lookupExact at hex
        cases hfind : MIME_EXACT.find? (fun q => q.1 == m) with
        | some p => rw [hfind] at hex; exact ⟨p, rfl, by simpa using hex⟩
        | none => rw [hfind] at hex; simp at hex
      exact mime_exact_values p (List.mem_of_find?_eq_some hp)
    | none =>
      rw [firstPrefixCat_eq_find]
      cases hfind : MIME_PREFIXES.find? (fun q => pyStartswith m q.1) with
      | some p => exact mime_prefix_values p (List.mem_of_find?_eq_some hfind)
      | none => decide
  · intro c hc
    unfold get_file_category
    rw [hc]
  · intro hnone p hp
    unfold get_file_category
    rw [hnone, firstPrefixCat_eq_find, hp]
    rfl
  · intro hnone hfind
    unfold get_file_category
    rw [hnone, firstPrefixCat_eq_find, hfind]
    rfl

/-- Witness for C2 at concrete media types: an exact match, a prefix
match, and an unmatched input. -/
theorem C2_witness :
    get_file_category "application/pdf" = "document" ∧
    get_file_category "image/png" = "image" ∧
    get_file_category "application/octet-stream" = "other" :=
  ⟨(C2_get_file_category_total "application/pdf").2.1 "document" (by decide),
   (C2_get_file_category_total "image/png").2.2.1 (by decide) ("image/", "image") (by decide),
   (C2_get_file_category_total "application/octet-stream").2.2.2.1 (by decide) (by decide)⟩

/-- C6: each local analyzer returns its fixed fallback list on the failure
branch instead of propagating the exception. -/
theorem C6_analyzers_never_raise (visionAvailable : Bool) (visionTags : List String)
    (file_path : String) :
    analyze_image_local none visionAvailable visionTags = ["image", "unknown"] ∧
    analyze_pdf none = ["pdf", "document", "error"] ∧
    analyze_text file_path none = ["text", "error"] :=
  ⟨rfl, rfl, rfl⟩

/-- C7: the safe-content sub-analysis adds professional and safe-content
exactly when both likelihoods are VERY_UNLIKELY, never emits flagged, and
its output is always the full safe pair or empty. -/
theorem C7_safe_search_exact (resp : Option VisionService.SafeSearchResult) :
    "flagged" ∉ VisionService.analyze_safe_search resp ∧
    (("professional" ∈ VisionService.analyze_safe_search resp ∧
      "safe-content" ∈ VisionService.analyze_safe_search resp) ↔
      resp = some ⟨.VERY_UNLIKELY, .VERY_UNLIKELY⟩) ∧
    (VisionService.analyze_safe_search resp = ["professional", "safe-content"] ∨
      VisionService.analyze_safe_search resp = []) := by
  revert resp
  decide

namespace FileProcessor

theorem analyze_image_local_decomp (img : ImageInfo) (avail : Bool) (vtags : List String) :
    analyze_image_local (some img) avail vtags =
      localImageTags img ++ (if avail then vtags else []) := by
  cases avail <;> simp [analyze_image_local, localImageTags, List.append_assoc]

end FileProcessor

/-- C8: the locally computed prefix of analyze_image_local does not depend
on the augmenter availability or its returned tags, and the augmenter tags
are only appended after the local tags. -/
theorem C8_local_tags_independent (img : ImageInfo) (a1 a2 : Bool) (t1 t2 : List String) :
    analyze_image_local (some img) a1 t1 = localImageTags img ++ (if a1 then t1 else []) ∧
    (analyze_image_local (some img) a1 t1).take (localImageTags img).length =
      (analyze_image_local (some img) a2 t2).take (localImageTags img).length := by
  refine ⟨analyze_image_local_decomp img a1 t1, ?_⟩
  rw [analyze_image_local_decomp, analyze_image_local_decomp, List.take_left, List.take_left]

namespace FileProcessor

theorem analyze_pdf_decomp (info : PdfInfo) :
    ∃ r, analyze_pdf (some info) = ("pdf" :: "document" :: pdfTier info.numPages) ++ r := by
  simp only [analyze_pdf]
  split_ifs with h1 h2
  · exact ⟨"text-heavy" ::
      (PDF_KEYWORDS.filter (fun ck => ck.2.any (fun k =>
        pyIn k (pyLower (String.join (info.pageTexts.take 3)))))).map (fun ck => ck.1),
      by simp⟩
  · exact ⟨(PDF_KEYWORDS.filter (fun ck => ck.2.any (fun k =>
      pyIn k (pyLower (String.join (info.pageTexts.take 3)))))).map (fun ck => ck.1), by simp⟩
  · exact ⟨[], by simp⟩

theorem mem_analyze_pdf_of_mem_tier (info : PdfInfo) (t : String)
    (ht : t ∈ pdfTier info.numPages) : t ∈ analyze_pdf (some info) := by
  obtain ⟨r, hr⟩ := analyze_pdf_decomp info
  rw [hr]
  simp [ht]

end FileProcessor

/-- C9: analyze_pdf classifies by page-count tiers: at most 3 pages adds
single-page and flyer, 4 to 5 adds short-document and brief, 6 to 20 adds
medium-document and report, more than 20 adds long-document, book and
manual. -/
theorem C9_pdf_page_tiers (info : PdfInfo) :
    (info.numPages ≤ 3 →
      "single-page" ∈ analyze_pdf (some info) ∧ "flyer" ∈ analyze_pdf (some info)) ∧
    (4 ≤ info.numPages ∧ info.numPages ≤ 5 →
      "short-document" ∈ analyze_pdf (some info) ∧ "brief" ∈ analyze_pdf (some info)) ∧
    (6 ≤ info.numPages ∧ info.numPages ≤ 20 →
      "medium-document" ∈ analyze_pdf (some info) ∧ "report" ∈ analyze_pdf (some info)) ∧
    (21 ≤ info.numPages →
      "long-document" ∈ analyze_pdf (some info) ∧ "book" ∈ analyze_pdf (some info) ∧
      "manual" ∈ analyze_pdf (some info)) := by
  refine ⟨fun h => ?_, fun h => ?_, fun h => ?_, fun h => ?_⟩
  · have ht : pdfTier info.numPages = ["single-page", "flyer"] := by
      unfold pdfTier
      rw [if_pos h]
    constructor <;> (apply mem_analyze_pdf_of_mem_tier; rw [ht]; simp)
  · have ht : pdfTier info.numPages = ["short-document", "brief"] := by
      unfold pdfTier
      rw [if_neg (by omega), if_pos h.2]
    constructor <;> (apply mem_analyze_pdf_of_mem_tier; rw [ht]; simp)
  · have ht : pdfTier info.numPages = ["medium-document", "report"] := by
      unfold pdfTier
      rw [if_neg (by omega), if_neg (by omega), if_pos h.2]
    constructor <;> (apply mem_analyze_pdf_of_mem_tier; rw [ht]; simp)
  · have ht : pdfTier info.numPages = ["long-document", "book", "manual"] := by
      unfold pdfTier
      rw [if_neg (by omega), if_neg (by omega), if_neg (by omega)]
    refine ⟨?_, ?_, ?_⟩ <;> (apply mem_analyze_pdf_of_mem_tier; rw [ht]; simp)

/-- Witness for C9: a 2-page file gets single-page and flyer, an 18-page
file gets medium-document and report. -/
theorem C9_witness :
    ("single-page" ∈ analyze_pdf (some ⟨2, []⟩) ∧ "flyer" ∈ analyze_pdf (some ⟨2, []⟩)) ∧
    ("medium-document" ∈ analyze_pdf (some ⟨18, []⟩) ∧ "report" ∈ analyze_pdf (some ⟨18, []⟩)) :=
  ⟨(C9_pdf_page_tiers ⟨2, []⟩).1 (by decide), (C9_pdf_page_tiers ⟨18, []⟩).2.2.1 (by decide)⟩

/-- C10: when the resolved category has no dedicated analyzer, analyze_file
returns exactly the singleton category list, independently of everything
read from the file. -/
theorem C10_analyze_file_no_analyzer (fd fd2 : FileData) (m : String)
    (h : get_file_category m ∉ ["image", "document", "text", "video", "audio"]) :
    analyze_file fd m = [get_file_category m] ∧ analyze_file fd m = analyze_file fd2 m := by
  simp only [List.mem_cons, List.not_mem_nil, not_or, List.mem_singleton] at h
  obtain ⟨h1, h2, h3, h4, h5, -⟩ := h
  have key : ∀ fd0 : FileData, analyze_file fd0 m = [get_file_category m] := by
    intro fd0
    unfold analyze_file
    rw [if_neg h1, if_neg h2, if_neg h3, if_neg h4, if_neg h5]
  rw [key fd, key fd2]
  exact ⟨rfl, rfl⟩

/-- Witness for C10: a zip archive is tagged with only its category. -/
theorem C10_witness :
    analyze_file ⟨"a.zip", none, false, [], none, none⟩ "application/zip" = ["archive"] := by
  rw [(C10_analyze_file_no_analyzer ⟨"a.zip", none, false, [], none, none⟩
    ⟨"b", none, false, [], none, none⟩ "application/zip" (by decide)).1]
  decide

/-- Witness for C7 at concrete safe-search responses. -/
theorem C7_witness :
    "professional" ∈ VisionService.analyze_safe_search
      (some ⟨.VERY_UNLIKELY, .VERY_UNLIKELY⟩) ∧
    "flagged" ∉ VisionService.analyze_safe_search (some ⟨.LIKELY, .LIKELY⟩) :=
  ⟨((C7_safe_search_exact (some ⟨.VERY_UNLIKELY, .VERY_UNLIKELY⟩)).2.1.mpr rfl).1,
   (C7_safe_search_exact (some ⟨.LIKELY, .LIKELY⟩)).1⟩
